import Mathlib

/-!
Verification of the GoHighLevel-MCP OAuth token manager

A shallow embedding of `src/clients/token-manager.ts`.

The TypeScript source is an `async` class; here every `await`-free stretch of
code becomes a pure Lean function, I/O results (the axios refresh call, the
MongoDB read/write, the wall clock) are supplied as explicit oracle
parameters, and the mutable instance fields (`cache`, connection state, the
backing store contents) are threaded as explicit state.

Times are unix milliseconds as `Int` (JS `Date.now()` returns an integral
millisecond count).  JS values that may be `undefined` are `Option`;
the JS `x || d` fallback on numbers (falsy: `0`) and strings (falsy: `""`)
is modelled by `jsOrInt` / `jsOrStr`.
-/

/-- JS `x || d` for a possibly-undefined number: `undefined` and `0` are falsy. -/
def jsOrInt (x : Option Int) (d : Int) : Int :=
  match x with
  | none => d
  | some v => if v = 0 then d else v

/-- JS `x || d` for a possibly-undefined string: `undefined` and `""` are falsy. -/
def jsOrStr (x : Option String) (d : String) : String :=
  match x with
  | none => d
  | some s => if s = "" then d else s

/-- Constant `TOKEN_CACHE_TTL_MS = 20 * 60 * 1000` (line 46). -/
def TOKEN_CACHE_TTL_MS : Int := 20 * 60 * 1000

/-- A MongoDB token document (interface `TokenDocument`, lines 26-37).
`access_token` is `Option String` because a document written by the
refresh path can carry an `undefined` value when the endpoint response
lacked the field; `updatedAt` is an optional `Date` (kept as unix ms).
Fields not read by the manager (`token_type`, `scope`, ...) are omitted. -/
structure TokenDocument where
  access_token : Option String
  refresh_token : String
  expires_in : Option Int
  updatedAt : Option Int
  deriving Repr, DecidableEq

/-- The in-memory cache entry (interface `CachedToken`, lines 39-44).
`accessToken` is `Option String`: `refreshToken` stores the destructured
response field, which can be `undefined`. -/
structure CachedToken where
  accessToken : Option String
  refreshToken : String
  expiresAt : Int
  fetchedAt : Int
  deriving Repr, DecidableEq

/-- JSON body of a 2xx response from the token endpoint, as destructured at
line 156: each field may be absent. -/
structure RefreshResponse where
  access_token : Option String
  refresh_token : Option String
  expires_in : Option Int
  deriving Repr, DecidableEq

/-- Mutable state touched by the sequential paths of the manager: the
in-memory cache and the contents of the `tokens` collection, keyed by
`companyId`. -/
structure MState where
  cache : Option CachedToken
  store : String → Option TokenDocument

/-- Errors a `getAccessToken` call can reject with. -/
inductive TMError where
  | notFound (companyId : String)
  | connectionError
  | refreshError
  deriving Repr, DecidableEq

/-- Oracle for one invocation of `refreshToken` (lines 144-187):
the axios result, `Date.now()` at line 157, whether the
`ensureConnected`/`updateOne` block of lines 167-181 succeeds, and the
`new Date()` written as `updatedAt` at line 177. -/
structure RefreshEnv where
  httpResult : Except Unit RefreshResponse
  now : Int
  writeOk : Bool
  tWrite : Int

/-- Model of `TokenManager.refreshToken` (lines 144-187).  On an axios rejection the
promise rejects (`RefreshError`) and no state changes.  On success the cache
is overwritten (lines 159-164), then the MongoDB `updateOne` with a `$set`
and **no** `upsert` option (lines 170-180) updates the record when one
matches `companyId` and writes nothing otherwise; any failure of that block
is caught (lines 182-184).  The destructured `access_token` is returned
as-is (line 186). -/
def refreshToken (cid : String) (env : RefreshEnv) (s : MState)
    (refreshTok : String) : Except Unit (Option String) × MState :=
  match env.httpResult with
  | .error _ => (.error (), s)
  | .ok resp =>
    let now := env.now
    let newCache : CachedToken :=
      { accessToken := resp.access_token
        refreshToken := jsOrStr resp.refresh_token refreshTok
        expiresAt := now + (jsOrInt resp.expires_in 86400) * 1000
        fetchedAt := now }
    let s1 : MState := { s with cache := some newCache }
    let s2 : MState :=
      if env.writeOk then
        { s1 with store := fun k =>
            if k = cid then
              (s1.store k).map (fun doc =>
                { doc with
                  access_token := resp.access_token
                  refresh_token := jsOrStr resp.refresh_token refreshTok
                  expires_in := some (jsOrInt resp.expires_in 86400)
                  updatedAt := some env.tWrite })
            else s1.store k }
      else s1
    (.ok resp.access_token, s2)

/-- Oracle for one invocation of `readTokenFromDb` (lines 111-142):
whether `ensureConnected` succeeds, the three `Date.now()` samples of
lines 124, 128, 137 in order, and the oracle for the nested refresh of
line 130 if that path is taken. -/
structure ReadEnv where
  connectOk : Bool
  tRead : Int
  tCheck : Int
  tFetch : Int
  refreshEnv : RefreshEnv

/-- Line 124: `doc.updatedAt ? new Date(doc.updatedAt).getTime() : Date.now()`
(a `Date` object is always truthy, so only absence takes the fallback). -/
def dbUpdatedAt (doc : TokenDocument) (tRead : Int) : Int :=
  match doc.updatedAt with
  | some t => t
  | none => tRead

/-- Line 125: `updatedAt + (doc.expires_in || 86400) * 1000`. -/
def dbExpiresAt (doc : TokenDocument) (tRead : Int) : Int :=
  dbUpdatedAt doc tRead + (jsOrInt doc.expires_in 86400) * 1000

/-- Model of `TokenManager.readTokenFromDb` (lines 111-142).  A connection failure
propagates; a missing document throws the NotFound error (lines 120-122);
the expiry check at line 128 is the **strict** comparison
`Date.now() > expiresAt - 60_000`; on the non-refresh path the document is
cached (lines 133-138) and its `access_token` returned verbatim. -/
def readTokenFromDb (cid : String) (env : ReadEnv) (s : MState) :
    Except TMError (Option String) × MState :=
  if !env.connectOk then (.error .connectionError, s)
  else
    match s.store cid with
    | none => (.error (.notFound cid), s)
    | some doc =>
      let expiresAt : Int := dbExpiresAt doc env.tRead
      if env.tCheck > expiresAt - 60000 then
        match refreshToken cid env.refreshEnv s doc.refresh_token with
        | (.error _, s') => (.error .refreshError, s')
        | (.ok tok, s') => (.ok tok, s')
      else
        let entry : CachedToken :=
          { accessToken := doc.access_token
            refreshToken := doc.refresh_token
            expiresAt := expiresAt
            fetchedAt := env.tFetch }
        let s' : MState := { s with cache := some entry }
        (.ok doc.access_token, s')

/-- Oracle for one invocation of `getAccessToken` (lines 73-90): the
`Date.now()` samples of lines 75 and 77, the oracle for the in-cache
refresh of line 82, and the oracle for the `readTokenFromDb` fallback. -/
structure CallEnv where
  tFresh : Int
  tExp : Int
  cacheRefreshEnv : RefreshEnv
  readEnv : ReadEnv

/-- Model of `TokenManager.getAccessToken` (lines 73-90).  With a cache entry whose
age is under the TTL (line 75): return it when `Date.now() <
expiresAt - 60_000` (line 77), otherwise attempt a refresh whose failure
is caught and demoted to the store read (lines 81-85).  Without a fresh
cache entry, read from the store (line 89). -/
def getAccessToken (cid : String) (env : CallEnv) (s : MState) :
    Except TMError (Option String) × MState :=
  match s.cache with
  | some c =>
    if env.tFresh - c.fetchedAt < TOKEN_CACHE_TTL_MS then
      if env.tExp < c.expiresAt - 60000 then
        (.ok c.accessToken, s)
      else
        match refreshToken cid env.cacheRefreshEnv s c.refreshToken with
        | (.ok tok, s') => (.ok tok, s')
        | (.error _, s') => readTokenFromDb cid env.readEnv s'
    else readTokenFromDb cid env.readEnv s
  | none => readTokenFromDb cid env.readEnv s

/-!
Connection establishment (`ensureConnected`, lines 92-109)

`ensureConnected` mutates two instance fields (`mongoClient`,
`connecting`) across `await` points, so it is modelled as a small-step
transition system under single-threaded cooperative scheduling: each step
is one `await`-free stretch of code, and an arbitrary schedule (a list of
actions) picks which runnable piece runs next.  Real event-loop microtask
order is one particular schedule, so properties proved for every schedule
cover it.

Pieces:
* each *caller* of `ensureConnected`, whose atomic first step is the
  synchronous stretch of lines 93-102 (the two field checks; on the
  create path also the start of the async closure, which runs up to its
  first `await` inside `getMongoClient` before the caller suspends on
  line 105);
* the *body*, the async closure of lines 96-102: one step for lines
  98-99 (`this.mongoClient = new MC(...)` and firing `connect()`),
  one step for `connect()` settling and the closure resolving with
  `return this.mongoClient` (line 101).

Connection handles (`new MC(uri)` objects) are numbered by a counter.
A caller that created the attempt runs `finally { this.connecting =
null }` (line 107) when it resumes; a caller that joined via line 94
returned the shared promise and runs no `finally`.  Loading the mongodb
module is taken to succeed; the fate of `connect()` is the
`connectOk` oracle.
-/

instance {ε α : Type} [DecidableEq ε] [DecidableEq α] :
    DecidableEq (Except ε α) := fun a b =>
  match a, b with
  | .ok x, .ok y =>
    if h : x = y then isTrue (congrArg Except.ok h)
    else isFalse (fun hh => h (Except.ok.inj hh))
  | .error x, .error y =>
    if h : x = y then isTrue (congrArg Except.error h)
    else isFalse (fun hh => h (Except.error.inj hh))
  | .ok _, .error _ => isFalse (fun hh => Except.noConfusion hh)
  | .error _, .ok _ => isFalse (fun hh => Except.noConfusion hh)

/-- Where one caller of `ensureConnected` stands. -/
inductive CallerPC where
  | start
  | awaitingOwn
  | awaitingShared
  | done (r : Except Unit Nat)
  deriving Repr, DecidableEq

/-- Where the async closure of lines 96-102 stands.  `settled` keeps the
promise's outcome readable by the remaining waiters. -/
inductive BodyPC where
  | idle
  | beforeNew
  | awaitingConnect (h : Nat)
  | settled (r : Except Unit Nat)
  deriving Repr, DecidableEq

/-- Connection-lifecycle state: the two instance fields, the closure, a
count of issued `connect()` attempts, a handle allocator, and the
callers. -/
structure ConnSys where
  mongoClient : Option Nat
  connectingSet : Bool
  body : BodyPC
  attempts : Nat
  nextHandle : Nat
  callers : List CallerPC
  deriving Repr, DecidableEq

/-- A schedule entry: run caller `i`'s next step, or the closure's. -/
inductive ConnAction where
  | caller (i : Nat)
  | body
  deriving Repr, DecidableEq

/-- One cooperative step.  An action whose piece is not runnable (a done
caller, a suspended caller whose promise has not settled, an idle body)
is a stutter. -/
def connStep (connectOk : Bool) (s : ConnSys) : ConnAction → ConnSys
  | .caller i =>
    match s.callers[i]? with
    | some .start =>
      match s.mongoClient with
      | some h => { s with callers := s.callers.set i (.done (.ok h)) }
      | none =>
        if s.connectingSet then
          { s with callers := s.callers.set i .awaitingShared }
        else
          { s with connectingSet := true, body := .beforeNew,
                   callers := s.callers.set i .awaitingOwn }
    | some .awaitingOwn =>
      match s.body with
      | .settled r =>
        { s with connectingSet := false, callers := s.callers.set i (.done r) }
      | _ => s
    | some .awaitingShared =>
      match s.body with
      | .settled r => { s with callers := s.callers.set i (.done r) }
      | _ => s
    | _ => s
  | .body =>
    match s.body with
    | .beforeNew =>
      let h := s.nextHandle
      { s with mongoClient := some h, nextHandle := h + 1,
               attempts := s.attempts + 1, body := .awaitingConnect h }
    | .awaitingConnect h =>
      if connectOk then
        { s with body := .settled (.ok (s.mongoClient.getD h)) }
      else
        { s with body := .settled (.error ()) }
    | _ => s

/-- Run a schedule. -/
def connRun (connectOk : Bool) (acts : List ConnAction) (s : ConnSys) : ConnSys :=
  acts.foldl (connStep connectOk) s

/-- Initial state: `n` callers about to enter `ensureConnected` on a manager that has
never connected. -/
def connInit (n : Nat) : ConnSys :=
  { mongoClient := none, connectingSet := false, body := .idle,
    attempts := 0, nextHandle := 0, callers := List.replicate n .start }

/-- Invariant of the success-outcome (`connectOk = true`) system: at most
one `connect()` is ever issued, handle `0` is the only one allocated, and
every finished caller resolved to it. -/
def ConnInv (s : ConnSys) : Prop :=
  s.nextHandle = s.attempts ∧
  s.attempts ≤ 1 ∧
  s.mongoClient = (if s.attempts = 0 then none else some 0) ∧
  (s.body = .idle → s.attempts = 0 ∧ s.connectingSet = false) ∧
  (s.body = .beforeNew → s.attempts = 0 ∧ s.connectingSet = true) ∧
  (∀ h, s.body = .awaitingConnect h → h = 0 ∧ s.attempts = 1) ∧
  (∀ r, s.body = .settled r → s.attempts = 1 ∧ r = .ok 0) ∧
  (∀ pc ∈ s.callers, ∀ r, pc = .done r → s.attempts = 1 ∧ r = .ok 0)

theorem connInv_init (n : Nat) : ConnInv (connInit n) := by
  refine ⟨rfl, by simp [connInit], by simp [connInit], fun _ => ⟨rfl, rfl⟩,
    by simp [connInit], by simp [connInit], by simp [connInit], ?_⟩
  intro pc hpc r hr
  rw [connInit] at hpc
  simp only at hpc
  have := List.eq_of_mem_replicate hpc
  subst this
  exact absurd hr (by simp)

theorem connInv_step (s : ConnSys) (a : ConnAction) (hs : ConnInv s) :
    ConnInv (connStep true s a) := by
  obtain ⟨h1, h2, h3, h4, h5, h6, h7, h8⟩ := hs
  cases a with
  | body =>
    cases hb : s.body with
    | idle =>
      simp only [connStep, hb]
      exact ⟨h1, h2, h3, h4, h5, h6, h7, h8⟩
    | beforeNew =>
      obtain ⟨ha0, hc⟩ := h5 hb
      simp only [connStep, hb]
      refine ⟨?_, ?_, ?_, ?_, ?_, ?_, ?_, ?_⟩
      · show s.nextHandle + 1 = s.attempts + 1
        omega
      · show s.attempts + 1 ≤ 1
        omega
      · show some s.nextHandle = if s.attempts + 1 = 0 then none else some 0
        have hn : s.nextHandle = 0 := by omega
        simp [hn]
      · intro h
        exact absurd h (by simp)
      · intro h
        exact absurd h (by simp)
      · intro h hh
        injection hh with hh
        refine ⟨by omega, ?_⟩
        show s.attempts + 1 = 1
        omega
      · intro r hr
        exact absurd hr (by simp)
      · intro pc hpc r hr
        exact absurd (h8 pc hpc r hr).1 (by omega)
    | awaitingConnect h =>
      obtain ⟨hh0, ha1⟩ := h6 h hb
      have hmc : s.mongoClient = some 0 := by rw [h3, ha1]; simp
      simp only [connStep, hb, hmc, reduceIte, Option.getD_some]
      refine ⟨h1, h2, ?_, ?_, ?_, ?_, ?_, h8⟩
      · show some 0 = if s.attempts = 0 then none else some 0
        rw [ha1]
        simp
      · intro hx
        exact absurd hx (by simp)
      · intro hx
        exact absurd hx (by simp)
      · intro h' hh
        exact absurd hh (by simp)
      · intro r hr
        injection hr with hr
        exact ⟨ha1, hr.symm⟩
    | settled r =>
      simp only [connStep, hb]
      exact ⟨h1, h2, h3, h4, h5, h6, h7, h8⟩
  | caller i =>
    cases hpc : s.callers[i]? with
    | none =>
      simp only [connStep, hpc]
      exact ⟨h1, h2, h3, h4, h5, h6, h7, h8⟩
    | some pc =>
      cases pc with
      | start =>
        cases hmc : s.mongoClient with
        | some h =>
          have ha1 : s.attempts = 1 := by
            rw [h3] at hmc
            by_cases h0 : s.attempts = 0
            · simp [h0] at hmc
            · omega
          have hh0 : h = 0 := by
            rw [h3, ha1] at hmc
            simpa using hmc.symm
          subst hh0
          simp only [connStep, hpc, hmc]
          refine ⟨h1, h2, ?_, h4, h5, h6, h7, ?_⟩
          · show some 0 = if s.attempts = 0 then none else some 0
            rw [ha1]
            simp
          · intro pc' hpc' r hr
            rcases List.mem_or_eq_of_mem_set hpc' with hmem | heq
            · exact h8 pc' hmem r hr
            · subst heq
              injection hr with hr
              exact ⟨ha1, hr ▸ rfl⟩
        | none =>
          have ha0 : s.attempts = 0 := by
            rw [h3] at hmc
            by_cases h0 : s.attempts = 0
            · exact h0
            · simp [h0] at hmc
          cases hcs : s.connectingSet with
          | true =>
            simp only [connStep, hpc, hmc, hcs, reduceIte]
            refine ⟨h1, h2, ?_, ?_, ?_, h6, h7, ?_⟩
            · show (none : Option Nat) = if s.attempts = 0 then none else some 0
              rw [ha0]
              simp
            · intro h
              have hcf := (h4 h).2
              rw [hcs] at hcf
              exact ⟨(h4 h).1, hcf⟩
            · intro h
              exact ⟨(h5 h).1, rfl⟩
            · intro pc' hpc' r hr
              rcases List.mem_or_eq_of_mem_set hpc' with hmem | heq
              · exact h8 pc' hmem r hr
              · subst heq
                exact CallerPC.noConfusion hr
          | false =>
            simp only [connStep, hpc, hmc, hcs, reduceIte]
            refine ⟨h1, h2, ?_, ?_, ?_, ?_, ?_, ?_⟩
            · show (none : Option Nat) = if s.attempts = 0 then none else some 0
              rw [ha0]
              simp
            · intro h
              exact absurd h (by simp)
            · intro h
              exact ⟨ha0, rfl⟩
            · intro h' hh
              exact absurd hh (by simp)
            · intro r hr
              exact absurd hr (by simp)
            · intro pc' hpc' r hr
              rcases List.mem_or_eq_of_mem_set hpc' with hmem | heq
              · exact absurd (h8 pc' hmem r hr).1 (by omega)
              · subst heq
                exact CallerPC.noConfusion hr
      | awaitingOwn =>
        cases hb : s.body with
        | idle =>
          simp only [connStep, hpc, hb]
          exact ⟨h1, h2, h3, h4, h5, h6, h7, h8⟩
        | beforeNew =>
          simp only [connStep, hpc, hb]
          exact ⟨h1, h2, h3, h4, h5, h6, h7, h8⟩
        | awaitingConnect h =>
          simp only [connStep, hpc, hb]
          exact ⟨h1, h2, h3, h4, h5, h6, h7, h8⟩
        | settled r =>
          obtain ⟨ha1, hr0⟩ := h7 r hb
          simp only [connStep, hpc, hb]
          refine ⟨h1, h2, h3, ?_, ?_, ?_, ?_, ?_⟩
          · intro h
            exact absurd h (by simp)
          · intro h
            exact absurd h (by simp)
          · intro h' hh
            exact absurd hh (by simp)
          · intro r' hr'
            injection hr' with hr'
            exact ⟨ha1, hr' ▸ hr0⟩
          · intro pc' hpc' r' hr'
            rcases List.mem_or_eq_of_mem_set hpc' with hmem | heq
            · exact h8 pc' hmem r' hr'
            · subst heq
              injection hr' with hr'
              exact ⟨ha1, hr' ▸ hr0⟩
      | awaitingShared =>
        cases hb : s.body with
        | idle =>
          simp only [connStep, hpc, hb]
          exact ⟨h1, h2, h3, h4, h5, h6, h7, h8⟩
        | beforeNew =>
          simp only [connStep, hpc, hb]
          exact ⟨h1, h2, h3, h4, h5, h6, h7, h8⟩
        | awaitingConnect h =>
          simp only [connStep, hpc, hb]
          exact ⟨h1, h2, h3, h4, h5, h6, h7, h8⟩
        | settled r =>
          obtain ⟨ha1, hr0⟩ := h7 r hb
          simp only [connStep, hpc, hb]
          refine ⟨h1, h2, h3, ?_, ?_, ?_, ?_, ?_⟩
          · intro h
            exact absurd h (by simp)
          · intro h
            exact absurd h (by simp)
          · intro h' hh
            exact absurd hh (by simp)
          · intro r' hr'
            injection hr' with hr'
            exact ⟨ha1, hr' ▸ hr0⟩
          · intro pc' hpc' r' hr'
            rcases List.mem_or_eq_of_mem_set hpc' with hmem | heq
            · exact h8 pc' hmem r' hr'
            · subst heq
              injection hr' with hr'
              exact ⟨ha1, hr' ▸ hr0⟩
      | done r =>
        simp only [connStep, hpc]
        exact ⟨h1, h2, h3, h4, h5, h6, h7, h8⟩

theorem connInv_run (acts : List ConnAction) (s : ConnSys) (hs : ConnInv s) :
    ConnInv (connRun true acts s) := by
  induction acts generalizing s with
  | nil => exact hs
  | cons a rest ih => exact ih _ (connInv_step s a hs)

theorem connStep_length (ok : Bool) (s : ConnSys) (a : ConnAction) :
    (connStep ok s a).callers.length = s.callers.length := by
  cases a with
  | body =>
    cases hb : s.body <;> cases ok <;> simp [connStep, hb]
  | caller i =>
    cases hpc : s.callers[i]? with
    | none => simp [connStep, hpc]
    | some pc =>
      cases pc with
      | start =>
        cases hmc : s.mongoClient with
        | some h => simp [connStep, hpc, hmc]
        | none => cases hcs : s.connectingSet <;> simp [connStep, hpc, hmc, hcs]
      | awaitingOwn => cases hb : s.body <;> simp [connStep, hpc, hb]
      | awaitingShared => cases hb : s.body <;> simp [connStep, hpc, hb]
      | done r => simp [connStep, hpc]

theorem connRun_length (ok : Bool) (acts : List ConnAction) (s : ConnSys) :
    (connRun ok acts s).callers.length = s.callers.length := by
  induction acts generalizing s with
  | nil => rfl
  | cons a rest ih => rw [connRun, List.foldl_cons, ← connRun, ih, connStep_length]

/-!
Claim theorems
-/

/-- C7: whenever the cache is absent or stale and the store holds no
record for the configured account identifier, `getAccessToken` fails with
the NotFound error and returns no token; state is unchanged. -/
theorem getAccessToken_not_found (cid : String) (env : CallEnv) (s : MState)
    (hnone : s.store cid = none)
    (hconn : env.readEnv.connectOk = true)
    (hmiss : s.cache = none ∨
      ∃ c, s.cache = some c ∧ ¬ (env.tFresh - c.fetchedAt < TOKEN_CACHE_TTL_MS)) :
    getAccessToken cid env s = (.error (.notFound cid), s) := by
  rcases hmiss with h | ⟨c, hc, hstale⟩
  · simp [getAccessToken, h, readTokenFromDb, hconn, hnone]
  · simp [getAccessToken, hc, hstale, readTokenFromDb, hconn, hnone]

/-- Witness for C7: an empty store and an empty cache. -/
theorem getAccessToken_not_found_witness :
    getAccessToken "X"
      { tFresh := 0, tExp := 0,
        cacheRefreshEnv := { httpResult := .error (), now := 0, writeOk := false, tWrite := 0 },
        readEnv := { connectOk := true, tRead := 0, tCheck := 0, tFetch := 0,
                     refreshEnv := { httpResult := .error (), now := 0,
                                     writeOk := false, tWrite := 0 } } }
      { cache := none, store := fun _ => none } =
      (.error (.notFound "X"), { cache := none, store := fun _ => none }) :=
  getAccessToken_not_found "X" _ _ rfl rfl (Or.inl rfl)

/-- C6: when the HTTP refresh succeeds but the write-through fails, the
failure is swallowed: `refreshToken` still returns the fresh access token,
the cache holds the refreshed entry, and the store is untouched; lifted
through the in-cache refresh branch of `getAccessToken`. -/
theorem refreshToken_write_failure_swallowed (cid : String) (env : RefreshEnv)
    (s : MState) (rt : String) (resp : RefreshResponse)
    (hok : env.httpResult = .ok resp)
    (hwfail : env.writeOk = false) :
    refreshToken cid env s rt =
      (.ok resp.access_token,
        { cache := some
            { accessToken := resp.access_token
              refreshToken := jsOrStr resp.refresh_token rt
              expiresAt := env.now + (jsOrInt resp.expires_in 86400) * 1000
              fetchedAt := env.now }
          store := s.store }) ∧
    (∀ (cenv : CallEnv) (c : CachedToken),
      s.cache = some c →
      cenv.cacheRefreshEnv = env →
      cenv.tFresh - c.fetchedAt < TOKEN_CACHE_TTL_MS →
      ¬ (cenv.tExp < c.expiresAt - 60000) →
      (getAccessToken cid cenv s).1 = .ok resp.access_token) := by
  constructor
  · simp [refreshToken, hok, hwfail]
  · intro cenv c hc hce hfresh hexp
    simp [getAccessToken, hc, hfresh, hexp, hce, refreshToken, hok, hwfail]

/-- Witness for C6: a successful refresh whose write-through fails still
yields the fresh token. -/
theorem refreshToken_write_failure_swallowed_witness :
    (refreshToken "X"
        { httpResult := .ok { access_token := some "fresh",
                              refresh_token := some "newR",
                              expires_in := some 3600 },
          now := 1000, writeOk := false, tWrite := 1000 }
        { cache := none, store := fun _ => none } "oldR").1 = .ok (some "fresh") := by
  rw [(refreshToken_write_failure_swallowed "X" _ _ "oldR"
    { access_token := some "fresh", refresh_token := some "newR",
      expires_in := some 3600 } rfl rfl).1]

/-- C5: an in-cache refresh failure is demoted: `getAccessToken` behaves
exactly as the store read; a refresh failure on that store-fallback path
(record present but past the skewed expiry) is the final error. -/
theorem cache_refresh_failure_falls_back (cid : String) (env : CallEnv)
    (s : MState) (c : CachedToken)
    (hc : s.cache = some c)
    (hfresh : env.tFresh - c.fetchedAt < TOKEN_CACHE_TTL_MS)
    (hexp : ¬ (env.tExp < c.expiresAt - 60000))
    (hfail : env.cacheRefreshEnv.httpResult = .error ()) :
    getAccessToken cid env s = readTokenFromDb cid env.readEnv s ∧
    (∀ doc, s.store cid = some doc → env.readEnv.connectOk = true →
      env.readEnv.tCheck > dbExpiresAt doc env.readEnv.tRead - 60000 →
      env.readEnv.refreshEnv.httpResult = .error () →
      (getAccessToken cid env s).1 = .error .refreshError) := by
  have h1 : getAccessToken cid env s = readTokenFromDb cid env.readEnv s := by
    simp [getAccessToken, hc, hfresh, hexp, refreshToken, hfail]
  refine ⟨h1, ?_⟩
  intro doc hdoc hconn hcheck hfail2
  rw [h1]
  simp [readTokenFromDb, hconn, hdoc, hcheck, refreshToken, hfail2]

/-- Witness for C5: a near-expiry cached token, a failing refresh endpoint
and an expired stored record end in the refresh error, via the fallback. -/
theorem cache_refresh_failure_falls_back_witness :
    (getAccessToken "X"
      { tFresh := 0, tExp := 0,
        cacheRefreshEnv := { httpResult := .error (), now := 0, writeOk := false, tWrite := 0 },
        readEnv := { connectOk := true, tRead := 7200000, tCheck := 7200000, tFetch := 7200000,
                     refreshEnv := { httpResult := .error (), now := 7200000,
                                     writeOk := false, tWrite := 7200000 } } }
      { cache := some { accessToken := some "cached", refreshToken := "crt",
                        expiresAt := 0, fetchedAt := 0 },
        store := fun k => if k = "X" then
            some { access_token := some "stored", refresh_token := "drt",
                   expires_in := some 3600, updatedAt := some 0 }
          else none }).1 = .error .refreshError := by
  exact (cache_refresh_failure_falls_back "X" _ _
      { accessToken := some "cached", refreshToken := "crt", expiresAt := 0, fetchedAt := 0 }
      rfl (by decide) (by decide) rfl).2
    { access_token := some "stored", refresh_token := "drt",
      expires_in := some 3600, updatedAt := some 0 }
    rfl rfl (by decide) rfl

/-- C10: a stored record with no `updatedAt` gets its expiry computed from
the read-time clock plus its lifetime, so whenever its effective
`expires_in` exceeds 60 seconds the record is cached and returned as-is,
never refreshed, regardless of its true age. -/
theorem missing_updatedAt_uses_read_time (cid : String) (renv : ReadEnv)
    (s : MState) (doc : TokenDocument)
    (hconn : renv.connectOk = true)
    (hdoc : s.store cid = some doc)
    (hupd : doc.updatedAt = none)
    (heff : 60 < jsOrInt doc.expires_in 86400)
    (hclock : renv.tCheck = renv.tRead) :
    readTokenFromDb cid renv s =
      (.ok doc.access_token,
       { cache := some
           { accessToken := doc.access_token
             refreshToken := doc.refresh_token
             expiresAt := renv.tRead + (jsOrInt doc.expires_in 86400) * 1000
             fetchedAt := renv.tFetch }
         store := s.store }) := by
  have hexp : dbExpiresAt doc renv.tRead =
      renv.tRead + (jsOrInt doc.expires_in 86400) * 1000 := by
    simp [dbExpiresAt, dbUpdatedAt, hupd]
  have hno : ¬ (renv.tRead + jsOrInt doc.expires_in 86400 * 1000 - 60000 <
      renv.tCheck) := by
    rw [hclock]
    omega
  simp [readTokenFromDb, hconn, hdoc, hexp, hno]

/-- Witness for C10: a record aged two hours but missing `updatedAt` is
served from its access token untouched. -/
theorem missing_updatedAt_uses_read_time_witness :
    readTokenFromDb "X"
      { connectOk := true, tRead := 7200000, tCheck := 7200000, tFetch := 7200000,
        refreshEnv := { httpResult := .error (), now := 0, writeOk := false, tWrite := 0 } }
      { cache := none,
        store := fun k => if k = "X" then
            some { access_token := some "aged", refresh_token := "r",
                   expires_in := some 3600, updatedAt := none }
          else none } =
      (.ok (some "aged"),
       { cache := some
           { accessToken := some "aged", refreshToken := "r",
             expiresAt := 7200000 + 3600 * 1000, fetchedAt := 7200000 },
         store := fun k => if k = "X" then
            some { access_token := some "aged", refresh_token := "r",
                   expires_in := some 3600, updatedAt := none }
          else none }) := by
  exact missing_updatedAt_uses_read_time "X"
    { connectOk := true, tRead := 7200000, tCheck := 7200000, tFetch := 7200000,
      refreshEnv := { httpResult := .error (), now := 0, writeOk := false, tWrite := 0 } }
    _
    { access_token := some "aged", refresh_token := "r",
      expires_in := some 3600, updatedAt := none }
    rfl rfl rfl (by decide) rfl

/-- C9: an `expires_in` of `0` is treated exactly like an absent field,
both by `refreshToken` (whole result equal; cached expiry and persisted
lifetime use 86400) and by `readTokenFromDb`. -/
theorem expires_in_zero_defaults (cid : String) (env : RefreshEnv) (s : MState)
    (rt : String) (resp : RefreshResponse) (renv : ReadEnv) (doc : TokenDocument) :
    (refreshToken cid { env with httpResult := .ok { resp with expires_in := some 0 } } s rt =
      refreshToken cid { env with httpResult := .ok { resp with expires_in := none } } s rt) ∧
    (∀ sZ sA : MState,
      sZ.cache = sA.cache →
      renv.connectOk = true →
      sZ.store cid = some { doc with expires_in := some 0 } →
      sA.store cid = some { doc with expires_in := none } →
      (readTokenFromDb cid renv sZ).1 = (readTokenFromDb cid renv sA).1 ∧
      (readTokenFromDb cid renv sZ).2.cache = (readTokenFromDb cid renv sA).2.cache) ∧
    ((refreshToken cid { env with httpResult := .ok { resp with expires_in := some 0 } } s rt).2.cache =
      some { accessToken := resp.access_token
             refreshToken := jsOrStr resp.refresh_token rt
             expiresAt := env.now + 86400 * 1000
             fetchedAt := env.now }) ∧
    (env.writeOk = true → s.store cid = some doc →
      (refreshToken cid { env with httpResult := .ok { resp with expires_in := some 0 } } s rt).2.store cid =
        some { doc with
               access_token := resp.access_token
               refresh_token := jsOrStr resp.refresh_token rt
               expires_in := some 86400
               updatedAt := some env.tWrite }) := by
  have hz : jsOrInt (some 0) 86400 = 86400 := rfl
  refine ⟨rfl, ?_, ?_, ?_⟩
  · intro sZ sA hcac hconn hZ hA
    have hexp : dbExpiresAt { doc with expires_in := some 0 } renv.tRead =
        dbExpiresAt { doc with expires_in := none } renv.tRead := rfl
    by_cases hbr : renv.tCheck >
        dbExpiresAt { doc with expires_in := none } renv.tRead - 60000
    · cases hres : renv.refreshEnv.httpResult with
      | error e =>
        simp [readTokenFromDb, hconn, hZ, hA, hexp, hbr, refreshToken, hres, hcac]
      | ok r =>
        cases hwk : renv.refreshEnv.writeOk <;>
          simp [readTokenFromDb, hconn, hZ, hA, hexp, hbr, refreshToken, hres, hcac, hwk]
    · simp [readTokenFromDb, hconn, hZ, hA, hexp, hbr]
  · simp [refreshToken]
    cases hw : env.writeOk <;> simp [jsOrInt]
  · intro hw hdoc
    simp [refreshToken, hw, hdoc, jsOrInt]

/-- Witness for C9: a refresh response carrying `expires_in = 0` persists
the default lifetime 86400 and stamps the write time. -/
theorem expires_in_zero_defaults_witness :
    (refreshToken "X"
        { httpResult := .ok { access_token := some "a", refresh_token := none,
                              expires_in := some 0 },
          now := 5, writeOk := true, tWrite := 7 }
        { cache := none,
          store := fun k => if k = "X" then
              some { access_token := some "old", refresh_token := "or",
                     expires_in := some 0, updatedAt := some 1 }
            else none } "rt").2.store "X" =
      some { access_token := some "a", refresh_token := "rt",
             expires_in := some 86400, updatedAt := some 7 } := by
  exact (expires_in_zero_defaults "X"
    { httpResult := .ok { access_token := some "a", refresh_token := none,
                          expires_in := some 0 },
      now := 5, writeOk := true, tWrite := 7 }
    { cache := none,
      store := fun k => if k = "X" then
          some { access_token := some "old", refresh_token := "or",
                 expires_in := some 0, updatedAt := some 1 }
        else none } "rt"
    { access_token := some "a", refresh_token := none, expires_in := some 0 }
    { connectOk := true, tRead := 0, tCheck := 0, tFetch := 0,
      refreshEnv := { httpResult := .error (), now := 0, writeOk := false, tWrite := 0 } }
    { access_token := some "old", refresh_token := "or",
      expires_in := some 0, updatedAt := some 1 }).2.2.2 rfl rfl

/-- C1 as amended: the 60-second skew is applied on both paths, but the
boundary instant `E - 60s` needs refresh only on the cache path (line 77
is the strict `now < expiresAt - 60_000`, so `now ≥ E - 60s` refreshes,
inclusive); the store-read path (line 128, `now > expiresAt - 60_000`)
treats exactly `E - 60s` as still valid and refreshes only for
`now > E - 60s`. -/
theorem expiry_skew_boundaries (cid : String) (env : CallEnv) (s s2 : MState)
    (c : CachedToken) (renv : ReadEnv) (doc : TokenDocument)
    (resp resp2 : RefreshResponse)
    (hc : s.cache = some c)
    (hfresh : env.tFresh - c.fetchedAt < TOKEN_CACHE_TTL_MS)
    (hhttp : env.cacheRefreshEnv.httpResult = .ok resp)
    (hdoc : s2.store cid = some doc)
    (hconn : renv.connectOk = true)
    (hhttp2 : renv.refreshEnv.httpResult = .ok resp2) :
    (env.tExp < c.expiresAt - 60000 →
      getAccessToken cid env s = (.ok c.accessToken, s)) ∧
    (env.tExp ≥ c.expiresAt - 60000 →
      (getAccessToken cid env s).1 = .ok resp.access_token) ∧
    (renv.tCheck ≤ dbExpiresAt doc renv.tRead - 60000 →
      (readTokenFromDb cid renv s2).1 = .ok doc.access_token) ∧
    (renv.tCheck > dbExpiresAt doc renv.tRead - 60000 →
      (readTokenFromDb cid renv s2).1 = .ok resp2.access_token) := by
  refine ⟨?_, ?_, ?_, ?_⟩
  · intro hlt
    simp [getAccessToken, hc, hfresh, hlt]
  · intro hge
    have hnlt : ¬ (env.tExp < c.expiresAt - 60000) := by omega
    simp [getAccessToken, hc, hfresh, hnlt, refreshToken, hhttp]
  · intro hle
    have hngt : ¬ (dbExpiresAt doc renv.tRead - 60000 < renv.tCheck) := by omega
    simp [readTokenFromDb, hconn, hdoc, hngt]
  · intro hgt
    simp [readTokenFromDb, hconn, hdoc, hgt, refreshToken, hhttp2]

/-- Witness for C1 (amended), at the boundary instant `E - 60s` on both
paths: the cache path refreshes (returns the endpoint token), the
store-read path serves the stored token untouched. -/
theorem expiry_skew_boundaries_witness :
    (getAccessToken "X"
      { tFresh := 0, tExp := 86340000,
        cacheRefreshEnv := { httpResult := .ok { access_token := some "fresh",
                                                 refresh_token := none,
                                                 expires_in := none },
                             now := 86340000, writeOk := false, tWrite := 0 },
        readEnv := { connectOk := true, tRead := 0, tCheck := 0, tFetch := 0,
                     refreshEnv := { httpResult := .error (), now := 0,
                                     writeOk := false, tWrite := 0 } } }
      { cache := some { accessToken := some "cached", refreshToken := "crt",
                        expiresAt := 86400000, fetchedAt := 86340000 },
        store := fun _ => none }).1 = .ok (some "fresh") ∧
    (readTokenFromDb "X"
      { connectOk := true, tRead := 0, tCheck := 86340000, tFetch := 86340000,
        refreshEnv := { httpResult := .ok { access_token := some "fresh2",
                                            refresh_token := none,
                                            expires_in := none },
                        now := 86340000, writeOk := false, tWrite := 0 } }
      { cache := none,
        store := fun k => if k = "X" then
            some { access_token := some "stored", refresh_token := "drt",
                   expires_in := some 86400, updatedAt := some 0 }
          else none }).1 = .ok (some "stored") := by
  have h := expiry_skew_boundaries "X"
    { tFresh := 0, tExp := 86340000,
      cacheRefreshEnv := { httpResult := .ok { access_token := some "fresh",
                                               refresh_token := none,
                                               expires_in := none },
                           now := 86340000, writeOk := false, tWrite := 0 },
      readEnv := { connectOk := true, tRead := 0, tCheck := 0, tFetch := 0,
                   refreshEnv := { httpResult := .error (), now := 0,
                                   writeOk := false, tWrite := 0 } } }
    { cache := some { accessToken := some "cached", refreshToken := "crt",
                      expiresAt := 86400000, fetchedAt := 86340000 },
      store := fun _ => none }
    { cache := none,
      store := fun k => if k = "X" then
          some { access_token := some "stored", refresh_token := "drt",
                 expires_in := some 86400, updatedAt := some 0 }
        else none }
    { accessToken := some "cached", refreshToken := "crt",
      expiresAt := 86400000, fetchedAt := 86340000 }
    { connectOk := true, tRead := 0, tCheck := 86340000, tFetch := 86340000,
      refreshEnv := { httpResult := .ok { access_token := some "fresh2",
                                          refresh_token := none,
                                          expires_in := none },
                      now := 86340000, writeOk := false, tWrite := 0 } }
    { access_token := some "stored", refresh_token := "drt",
      expires_in := some 86400, updatedAt := some 0 }
    { access_token := some "fresh", refresh_token := none, expires_in := none }
    { access_token := some "fresh2", refresh_token := none, expires_in := none }
    rfl (by decide) rfl rfl rfl rfl
  exact ⟨h.2.1 (by decide), h.2.2.1 (by decide)⟩

/-- Counterexample for C1 as stated: at exactly `E - 60s` the store-read
path does **not** treat the token as needing refresh — with a refresh
endpoint that would fail, the stored token is still served — although the
claim requires the boundary to count as needing refresh on both paths. -/
theorem expiry_skew_boundaries_counterexample :
    (readTokenFromDb "X"
      { connectOk := true, tRead := 0, tCheck := 86340000, tFetch := 86340000,
        refreshEnv := { httpResult := .error (), now := 86340000,
                        writeOk := false, tWrite := 0 } }
      { cache := none,
        store := fun k => if k = "X" then
            some { access_token := some "stored", refresh_token := "drt",
                   expires_in := some 86400, updatedAt := some 0 }
          else none }).1 = .ok (some "stored") ∧
    86340000 = 86400000 - 60000 := by
  constructor
  · rfl
  · rfl

/-- Helper: a token resolved by `refreshToken` is the verbatim
`access_token` field of a 2xx endpoint response. -/
theorem refreshToken_ok_provenance (cid : String) (env : RefreshEnv)
    (s : MState) (rt : String) (v : Option String)
    (hv : (refreshToken cid env s rt).1 = .ok v) :
    ∃ resp, env.httpResult = .ok resp ∧ v = resp.access_token := by
  cases henv : env.httpResult with
  | error e => simp [refreshToken, henv] at hv
  | ok resp =>
    refine ⟨resp, rfl, ?_⟩
    simp [refreshToken, henv] at hv
    exact hv.symm

/-- Helper: a token resolved by `readTokenFromDb` is verbatim either the
stored record's `access_token` or a refresh response's. -/
theorem readTokenFromDb_ok_provenance (cid : String) (renv : ReadEnv)
    (s : MState) (v : Option String)
    (hv : (readTokenFromDb cid renv s).1 = .ok v) :
    (∃ doc, s.store cid = some doc ∧ v = doc.access_token) ∨
    (∃ resp, renv.refreshEnv.httpResult = .ok resp ∧ v = resp.access_token) := by
  by_cases hc : renv.connectOk = true
  · cases hd : s.store cid with
    | none => simp [readTokenFromDb, hc, hd] at hv
    | some doc =>
      by_cases hbr : renv.tCheck > dbExpiresAt doc renv.tRead - 60000
      · right
        cases hr : refreshToken cid renv.refreshEnv s doc.refresh_token with
        | mk r s' =>
          cases r with
          | error e => simp [readTokenFromDb, hc, hd, hbr, hr] at hv
          | ok tok =>
            have htv : tok = v := by
              simpa [readTokenFromDb, hc, hd, hbr, hr] using hv
            obtain ⟨resp, hresp, he⟩ := refreshToken_ok_provenance cid
              renv.refreshEnv s doc.refresh_token v (by rw [hr, htv])
            exact ⟨resp, hresp, he⟩
      · left
        refine ⟨doc, rfl, ?_⟩
        have := hv
        simp [readTokenFromDb, hc, hd, hbr] at this
        exact this.symm
  · have hcf : renv.connectOk = false := by simpa using hc
    simp [readTokenFromDb, hcf] at hv

/-- C8 as amended: `getAccessToken` applies no validation to token
values: any token it resolves with is the **verbatim** `accessToken` of
the cache entry, `access_token` of the stored record, or `access_token`
of a 2xx refresh response — including `undefined` (response field absent)
and the empty string; all failures carry one of the defined error
kinds. -/
theorem getAccessToken_token_provenance (cid : String) (env : CallEnv)
    (s : MState) (v : Option String)
    (hv : (getAccessToken cid env s).1 = .ok v) :
    (∃ c, s.cache = some c ∧ v = c.accessToken) ∨
    (∃ doc, s.store cid = some doc ∧ v = doc.access_token) ∨
    (∃ resp, (env.cacheRefreshEnv.httpResult = .ok resp ∨
              env.readEnv.refreshEnv.httpResult = .ok resp) ∧
      v = resp.access_token) := by
  cases hcc : s.cache with
  | none =>
    have hv' : (readTokenFromDb cid env.readEnv s).1 = .ok v := by
      simpa [getAccessToken, hcc] using hv
    rcases readTokenFromDb_ok_provenance cid env.readEnv s v hv' with
      ⟨doc, hd, he⟩ | ⟨resp, hr, he⟩
    · exact Or.inr (Or.inl ⟨doc, hd, he⟩)
    · exact Or.inr (Or.inr ⟨resp, Or.inr hr, he⟩)
  | some c =>
    by_cases hfresh : env.tFresh - c.fetchedAt < TOKEN_CACHE_TTL_MS
    · by_cases hval : env.tExp < c.expiresAt - 60000
      · left
        refine ⟨c, rfl, ?_⟩
        have := hv
        simp [getAccessToken, hcc, hfresh, hval] at this
        exact this.symm
      · cases hr : refreshToken cid env.cacheRefreshEnv s c.refreshToken with
        | mk r s' =>
          cases r with
          | ok tok =>
            have htv : tok = v := by
              simpa [getAccessToken, hcc, hfresh, hval, hr] using hv
            obtain ⟨resp, hresp, he⟩ := refreshToken_ok_provenance cid
              env.cacheRefreshEnv s c.refreshToken v (by rw [hr, htv])
            exact Or.inr (Or.inr ⟨resp, Or.inl hresp, he⟩)
          | error e =>
            have hs' : s' = s := by
              cases hh : env.cacheRefreshEnv.httpResult with
              | ok resp => simp [refreshToken, hh] at hr
              | error u =>
                have := hr
                simp [refreshToken, hh] at this
                exact this.symm
            have hv' : (readTokenFromDb cid env.readEnv s).1 = .ok v := by
              rw [← hs']
              simpa [getAccessToken, hcc, hfresh, hval, hr] using hv
            rcases readTokenFromDb_ok_provenance cid env.readEnv s v hv' with
              ⟨doc, hd, he⟩ | ⟨resp, hrr, he⟩
            · exact Or.inr (Or.inl ⟨doc, hd, he⟩)
            · exact Or.inr (Or.inr ⟨resp, Or.inr hrr, he⟩)
    · have hv' : (readTokenFromDb cid env.readEnv s).1 = .ok v := by
        simpa [getAccessToken, hcc, hfresh] using hv
      rcases readTokenFromDb_ok_provenance cid env.readEnv s v hv' with
        ⟨doc, hd, he⟩ | ⟨resp, hrr, he⟩
      · exact Or.inr (Or.inl ⟨doc, hd, he⟩)
      · exact Or.inr (Or.inr ⟨resp, Or.inr hrr, he⟩)

/-- Counterexample for C8 as stated: a 2xx refresh response with no
`access_token` field makes `getAccessToken` resolve with `undefined`
(modelled `none`), and a stored record with the empty string as access
token is returned as-is — in both cases an invalid/empty token is
silently returned rather than an error. -/
theorem getAccessToken_invalid_token_counterexample :
    (getAccessToken "X"
      { tFresh := 0, tExp := 0,
        cacheRefreshEnv := { httpResult := .ok { access_token := none,
                                                 refresh_token := none,
                                                 expires_in := none },
                             now := 0, writeOk := false, tWrite := 0 },
        readEnv := { connectOk := true, tRead := 0, tCheck := 0, tFetch := 0,
                     refreshEnv := { httpResult := .error (), now := 0,
                                     writeOk := false, tWrite := 0 } } }
      { cache := some { accessToken := some "old", refreshToken := "crt",
                        expiresAt := 0, fetchedAt := 0 },
        store := fun _ => none }).1 = .ok none ∧
    (getAccessToken "X"
      { tFresh := 0, tExp := 0,
        cacheRefreshEnv := { httpResult := .error (), now := 0,
                             writeOk := false, tWrite := 0 },
        readEnv := { connectOk := true, tRead := 0, tCheck := 0, tFetch := 0,
                     refreshEnv := { httpResult := .error (), now := 0,
                                     writeOk := false, tWrite := 0 } } }
      { cache := none,
        store := fun k => if k = "X" then
            some { access_token := some "", refresh_token := "r",
                   expires_in := some 86400, updatedAt := some 0 }
          else none }).1 = .ok (some "") := by
  exact ⟨rfl, rfl⟩

/-- Witness for C8 (amended): the empty stored token flows through
verbatim, with its provenance being the stored record. -/
theorem getAccessToken_token_provenance_witness :
    (∃ c, ({ cache := none,
             store := fun k => if k = "X" then
                 some { access_token := some "", refresh_token := "r",
                        expires_in := some 86400, updatedAt := some 0 }
               else none } : MState).cache = some c ∧
          (some "" : Option String) = c.accessToken) ∨
    (∃ doc, ({ cache := none,
               store := fun k => if k = "X" then
                   some { access_token := some "", refresh_token := "r",
                          expires_in := some 86400, updatedAt := some 0 }
                 else none } : MState).store "X" = some doc ∧
            (some "" : Option String) = doc.access_token) ∨
    (∃ resp, (({ tFresh := 0, tExp := 0,
                 cacheRefreshEnv := { httpResult := .error (), now := 0,
                                      writeOk := false, tWrite := 0 },
                 readEnv := { connectOk := true, tRead := 0, tCheck := 0, tFetch := 0,
                              refreshEnv := { httpResult := .error (), now := 0,
                                              writeOk := false, tWrite := 0 } } } :
                CallEnv).cacheRefreshEnv.httpResult = .ok resp ∨
              ({ tFresh := 0, tExp := 0,
                 cacheRefreshEnv := { httpResult := .error (), now := 0,
                                      writeOk := false, tWrite := 0 },
                 readEnv := { connectOk := true, tRead := 0, tCheck := 0, tFetch := 0,
                              refreshEnv := { httpResult := .error (), now := 0,
                                              writeOk := false, tWrite := 0 } } } :
                CallEnv).readEnv.refreshEnv.httpResult = .ok resp) ∧
      (some "" : Option String) = resp.access_token) := by
  exact getAccessToken_token_provenance "X"
    { tFresh := 0, tExp := 0,
      cacheRefreshEnv := { httpResult := .error (), now := 0,
                           writeOk := false, tWrite := 0 },
      readEnv := { connectOk := true, tRead := 0, tCheck := 0, tFetch := 0,
                   refreshEnv := { httpResult := .error (), now := 0,
                                   writeOk := false, tWrite := 0 } } }
    { cache := none,
      store := fun k => if k = "X" then
          some { access_token := some "", refresh_token := "r",
                 expires_in := some 86400, updatedAt := some 0 }
        else none }
    (some "") rfl

/-- Helper: the `expires_in || 86400` fallback never yields `0`. -/
theorem jsOrInt_default_ne_zero (x : Option Int) : jsOrInt x 86400 ≠ 0 := by
  cases x with
  | none => simp [jsOrInt]
  | some v =>
    by_cases hv : v = 0 <;> simp [jsOrInt, hv]

/-- Helper: persisting `expires_in || 86400` and applying the fallback
again on read-back is the identity. -/
theorem jsOrInt_idem (x : Option Int) :
    jsOrInt (some (jsOrInt x 86400)) 86400 = jsOrInt x 86400 := by
  have h := jsOrInt_default_ne_zero x
  simp [jsOrInt]
  intro hc
  exact absurd hc h

/-- C3 as amended: the post-refresh write-through is an **update**, not an
upsert.  When a record exists for the identifier, the write stores the
fresh access/refresh tokens, the defaulted lifetime and the write
timestamp, and an immediate non-expired read-back returns exactly the
written tokens with expiry `updatedAt + expires_in`; when no record
exists, the write-through writes nothing and a subsequent read fails
NotFound. -/
theorem post_refresh_write_is_update (cid : String) (env : RefreshEnv)
    (s : MState) (rt : String) (resp : RefreshResponse)
    (hok : env.httpResult = .ok resp)
    (hw : env.writeOk = true) :
    (∀ doc, s.store cid = some doc →
      (refreshToken cid env s rt).2.store cid =
        some { doc with
               access_token := resp.access_token
               refresh_token := jsOrStr resp.refresh_token rt
               expires_in := some (jsOrInt resp.expires_in 86400)
               updatedAt := some env.tWrite } ∧
      (∀ renv : ReadEnv, renv.connectOk = true →
        ¬ (env.tWrite + (jsOrInt resp.expires_in 86400) * 1000 - 60000 <
            renv.tCheck) →
        (readTokenFromDb cid renv (refreshToken cid env s rt).2).1 =
          .ok resp.access_token ∧
        (readTokenFromDb cid renv (refreshToken cid env s rt).2).2.cache =
          some { accessToken := resp.access_token
                 refreshToken := jsOrStr resp.refresh_token rt
                 expiresAt := env.tWrite + (jsOrInt resp.expires_in 86400) * 1000
                 fetchedAt := renv.tFetch })) ∧
    (s.store cid = none →
      (refreshToken cid env s rt).2.store cid = none ∧
      (∀ renv : ReadEnv, renv.connectOk = true →
        (readTokenFromDb cid renv (refreshToken cid env s rt).2).1 =
          .error (.notFound cid))) := by
  constructor
  · intro doc hdoc
    have hstore : (refreshToken cid env s rt).2.store cid =
        some { doc with
               access_token := resp.access_token
               refresh_token := jsOrStr resp.refresh_token rt
               expires_in := some (jsOrInt resp.expires_in 86400)
               updatedAt := some env.tWrite } := by
      simp [refreshToken, hok, hw, hdoc]
    refine ⟨hstore, ?_⟩
    intro renv hconn hle
    have hexp : dbExpiresAt
        { doc with
          access_token := resp.access_token
          refresh_token := jsOrStr resp.refresh_token rt
          expires_in := some (jsOrInt resp.expires_in 86400)
          updatedAt := some env.tWrite } renv.tRead =
        env.tWrite + (jsOrInt resp.expires_in 86400) * 1000 := by
      simp [dbExpiresAt, dbUpdatedAt, jsOrInt_idem]
    constructor
    · simp [readTokenFromDb, hconn, hstore, hexp, hle]
    · simp [readTokenFromDb, hconn, hstore, hexp, hle]
  · intro hnone
    have hstore : (refreshToken cid env s rt).2.store cid = none := by
      simp [refreshToken, hok, hw, hnone]
    refine ⟨hstore, ?_⟩
    intro renv hconn
    simp [readTokenFromDb, hconn, hstore]

/-- Counterexample for C3 as stated: after a successful refresh against an
empty store, the write-through (an `updateOne` without `upsert`) persists
nothing, and the subsequent read of the identifier fails NotFound instead
of returning the just-written tokens. -/
theorem post_refresh_upsert_counterexample :
    ((refreshToken "X"
        { httpResult := .ok { access_token := some "newA",
                              refresh_token := some "newR",
                              expires_in := some 3600 },
          now := 1000, writeOk := true, tWrite := 1000 }
        { cache := none, store := fun _ => none } "oldR").2.store "X" = none) ∧
    ((readTokenFromDb "X"
        { connectOk := true, tRead := 2000, tCheck := 2000, tFetch := 2000,
          refreshEnv := { httpResult := .error (), now := 2000,
                          writeOk := false, tWrite := 2000 } }
        (refreshToken "X"
          { httpResult := .ok { access_token := some "newA",
                                refresh_token := some "newR",
                                expires_in := some 3600 },
            now := 1000, writeOk := true, tWrite := 1000 }
          { cache := none, store := fun _ => none } "oldR").2).1 =
      .error (.notFound "X")) := by
  exact ⟨rfl, rfl⟩

/-- Witness for C3 (amended): with a pre-existing record, the write-through
persists the refreshed fields and the read-back returns them. -/
theorem post_refresh_write_is_update_witness :
    (refreshToken "X"
        { httpResult := .ok { access_token := some "newA",
                              refresh_token := some "newR",
                              expires_in := some 3600 },
          now := 1000, writeOk := true, tWrite := 1000 }
        { cache := none,
          store := fun k => if k = "X" then
              some { access_token := some "oldA", refresh_token := "oldR",
                     expires_in := some 3600, updatedAt := some 0 }
            else none } "oldR").2.store "X" =
      some { access_token := some "newA", refresh_token := "newR",
             expires_in := some 3600, updatedAt := some 1000 } := by
  exact ((post_refresh_write_is_update "X"
    { httpResult := .ok { access_token := some "newA",
                          refresh_token := some "newR",
                          expires_in := some 3600 },
      now := 1000, writeOk := true, tWrite := 1000 }
    { cache := none,
      store := fun k => if k = "X" then
          some { access_token := some "oldA", refresh_token := "oldR",
                 expires_in := some 3600, updatedAt := some 0 }
        else none } "oldR"
    { access_token := some "newA", refresh_token := some "newR",
      expires_in := some 3600 } rfl rfl).1
    { access_token := some "oldA", refresh_token := "oldR",
      expires_in := some 3600, updatedAt := some 0 } rfl).1

/-- C4: connection establishment is single-flight.  Starting from a
never-connected manager with any number of concurrent callers and a
succeeding `connect()`, under every cooperative schedule at most one
underlying connection attempt is issued, every caller that has resolved
holds the one handle, and once all callers have resolved (at least one
caller existing) exactly one attempt was made. -/
theorem ensureConnected_single_flight (n : Nat) (acts : List ConnAction) :
    (connRun true acts (connInit n)).attempts ≤ 1 ∧
    (∀ (i : Nat) (r : Except Unit Nat),
      (connRun true acts (connInit n)).callers[i]? = some (CallerPC.done r) →
      r = .ok 0) ∧
    ((∀ pc ∈ (connRun true acts (connInit n)).callers,
        ∃ r, pc = CallerPC.done r) →
      1 ≤ n → (connRun true acts (connInit n)).attempts = 1) := by
  obtain ⟨h1, h2, h3, h4, h5, h6, h7, h8⟩ :=
    connInv_run acts (connInit n) (connInv_init n)
  refine ⟨h2, ?_, ?_⟩
  · intro i r hi
    have hmem : CallerPC.done r ∈ (connRun true acts (connInit n)).callers :=
      List.getElem?_mem hi
    exact (h8 _ hmem r rfl).2
  · intro hall hn
    have hlen : (connRun true acts (connInit n)).callers.length = n := by
      rw [connRun_length]
      simp [connInit]
    have hne : (connRun true acts (connInit n)).callers ≠ [] := by
      intro hnil
      rw [hnil] at hlen
      simp at hlen
      omega
    obtain ⟨pc, hpc⟩ := List.exists_mem_of_ne_nil _ hne
    obtain ⟨r, hr⟩ := hall pc hpc
    exact (h8 pc hpc r hr).1

/-- Witness for C4: two callers interleaved through one connect cycle both
resolve to handle `0` after exactly one attempt. -/
theorem ensureConnected_single_flight_witness :
    (connRun true [.caller 0, .caller 1, .body, .body, .caller 1, .caller 0]
        (connInit 2)).attempts = 1 := by
  apply (ensureConnected_single_flight 2
    [.caller 0, .caller 1, .body, .body, .caller 1, .caller 0]).2.2
  · intro pc hpc
    have hcallers : (connRun true
        [.caller 0, .caller 1, .body, .body, .caller 1, .caller 0]
        (connInit 2)).callers = [.done (.ok 0), .done (.ok 0)] := rfl
    rw [hcallers] at hpc
    simp at hpc
    exact ⟨.ok 0, hpc⟩
  · decide

/-- C2 (code bug): when the `connect()` attempt rejects, the in-flight
marker is cleared by the `finally`, but `this.mongoClient` — assigned at
line 98 **before** the `await` of `connect()` — keeps the never-connected
client.  The next `ensureConnected` call therefore returns that stale
handle immediately (no fresh attempt, attempt count still 1) instead of
starting a fresh connection attempt as the spec requires. -/
theorem ensureConnected_failed_attempt_keeps_stale_client :
    (connRun false [.caller 0, .body, .body, .caller 0, .caller 1]
        (connInit 2)).callers[0]? = some (.done (.error ())) ∧
    (connRun false [.caller 0, .body, .body, .caller 0, .caller 1]
        (connInit 2)).connectingSet = false ∧
    (connRun false [.caller 0, .body, .body, .caller 0, .caller 1]
        (connInit 2)).mongoClient = some 0 ∧
    (connRun false [.caller 0, .body, .body, .caller 0, .caller 1]
        (connInit 2)).callers[1]? = some (.done (.ok 0)) ∧
    (connRun false [.caller 0, .body, .body, .caller 0, .caller 1]
        (connInit 2)).attempts = 1 := by
  exact ⟨rfl, rfl, rfl, rfl, rfl⟩
